import Mathlib

/-!
Shallow embedding of `scripts/registries-test.py`, a script that tests the
`uv add` command against externally configured package registries.

The script is single-threaded and strictly sequential.  Its observable
behaviour is a function of the process environment, the result of the
external `cargo build` invocation, and the result of each external
`cargo run -- add ...` invocation.  We model those external results as
inputs (a `World`), translate each Python function into a Lean function,
and instrument the model with a ghost trace of the subprocess invocations
(`InvokeRecord`) so that "the external tool was invoked" is expressible.

Python strings are modelled as `List Char`; `str.lower`/`str.upper` are
modelled by `Char.toLower`/`Char.toUpper` (ASCII, which agrees with Python
on the ASCII registry names the script manipulates).
-/

namespace RegistriesTest

/-- Python strings are modelled as lists of characters. -/
abbrev Str := List Char

/-- `str.lower()` (ASCII range, as used for registry names). -/
def strLower (s : Str) : Str := s.map Char.toLower

/-- `str.upper()` (ASCII range, as used for registry names). -/
def strUpper (s : Str) : Str := s.map Char.toUpper

/-- Dictionary lookup in a Python `dict` represented as an association
list (`os.environ[k]` / `os.getenv(k)`): first matching key wins. -/
def lookupEnv : List (Str × Str) → Str → Option Str
  | [], _ => none
  | (k, v) :: rest, key => if k = key then some v else lookupEnv rest key

/-- Python `dict` assignment `d[k] = v`: updates the value in place if the
key is already present (keeping its position), otherwise appends. -/
def dictInsert : List (Str × Str) → Str → Str → List (Str × Str)
  | [], k, v => [(k, v)]
  | (k0, v0) :: rest, k, v =>
    if k0 = k then (k, v) :: rest else (k0, v0) :: dictInsert rest k v

/-- Python truthiness test `not x` for `x : Optional[str]`:
`None` and the empty string are falsy. -/
def pyFalsy : Option Str → Bool
  | none => true
  | some s => s.isEmpty

/-- Python `x or d` for `x : Optional[str]` (used for the
`username` default). -/
def pyOrDefault (o : Option Str) (d : Str) : Str :=
  match o with
  | some s => if s.isEmpty then d else s
  | none => d

/-- The whitespace characters stripped by Python's `str.strip()`
(ASCII subset). -/
def pyIsSpace (c : Char) : Bool :=
  c = ' ' || c = '\t' || c = '\n' || c = '\r' || c = '\x0b' || c = '\x0c'

/-- Python `str.strip()`: drop whitespace from both ends. -/
def pyStrip (s : Str) : Str :=
  ((s.dropWhile pyIsSpace).reverse.dropWhile pyIsSpace).reverse

/-- Python `str.split("\n")`: split on every newline, keeping empty
pieces; the empty string yields `[""]`. -/
def splitNl : Str → List Str
  | [] => [[]]
  | c :: rest =>
    if c = '\n' then [] :: splitNl rest
    else
      match splitNl rest with
      | [] => [[c]]
      | l :: ls => (c :: l) :: ls

/-- The fixed part `UV_TEST_` of the registry URL variable pattern. -/
def URL_PRE : Str := "UV_TEST_".toList

/-- The fixed part `_URL` of the registry URL variable pattern. -/
def URL_SUF : Str := "_URL".toList

/-- `re.match(r"^UV_TEST_(.+)_URL$", s)` from `get_registries`, returning
`group(1)`.  `.` does not match a newline; `$` also matches just before a
single trailing newline.  Because the prefix and suffix of the pattern
have fixed lengths, the captured group is determined as the middle part
of the decomposition. -/
def matchUrlVar (s : Str) : Option Str :=
  let t := if s.getLast? = some '\n' then s.dropLast else s
  let mid := (t.drop URL_PRE.length).take (t.length - URL_PRE.length - URL_SUF.length)
  if URL_PRE.isPrefixOf t && URL_SUF.isSuffixOf t
      && decide (URL_PRE.length + URL_SUF.length < t.length) && !(mid.contains '\n')
  then some mid
  else none

/-- `get_registries()`: scan the environment for variables matching
`^UV_TEST_(.+)_URL$` and build the dict from lower-cased captured name to
the variable's value. -/
def get_registries (environ : List (Str × Str)) : List (Str × Str) :=
  environ.foldl
    (fun regs kv =>
      match matchUrlVar kv.1 with
      | some name => dictInsert regs (strLower name) kv.2
      | none => regs)
    []

/-- Key `UV_TEST_<NAME>_TOKEN` for the upper-cased registry name. -/
def tokenKey (name : Str) : Str :=
  "UV_TEST_".toList ++ (strUpper name ++ "_TOKEN".toList)

/-- Key `UV_TEST_<NAME>_PKG` for the upper-cased registry name. -/
def pkgKey (name : Str) : Str :=
  "UV_TEST_".toList ++ (strUpper name ++ "_PKG".toList)

/-- Key `UV_TEST_<NAME>_USERNAME` for the upper-cased registry name. -/
def userKey (name : Str) : Str :=
  "UV_TEST_".toList ++ (strUpper name ++ "_USERNAME".toList)

/-- Key `UV_INDEX_<NAME>_USERNAME` written by `run_test`. -/
def idxUserKey (name : Str) : Str :=
  "UV_INDEX_".toList ++ (strUpper name ++ "_USERNAME".toList)

/-- Key `UV_INDEX_<NAME>_PASSWORD` written by `run_test`. -/
def idxPassKey (name : Str) : Str :=
  "UV_INDEX_".toList ++ (strUpper name ++ "_PASSWORD".toList)

/-- The status tag printed for one registry's test. -/
inductive Outcome
  | PASS
  | FAIL
  | TIMEOUT
  | ERROR
  | SKIPPED
deriving DecidableEq, Repr

/-- Result of one external `cargo run -- add ...` subprocess, as observed
by `run_test`'s `try` block. -/
inductive InvokeResult
  | completed (returncode : Int) (stderr : Str)
  | timedOut
  | fileNotFound
  | excepted
deriving DecidableEq, Repr

/-- The line marker `" + <package>=="` scanned for in the captured
stderr of a zero-exit invocation. -/
def successMarker (package : Str) : Str :=
  " + ".toList ++ (package ++ "==".toList)

/-- Classification of a completed invocation by `run_test`
(lines 106-143 of the script): non-zero exit is FAIL; zero exit is PASS
iff some line of `stderr.strip().split("\n")` starts with the marker;
`TimeoutExpired` is TIMEOUT; `FileNotFoundError` and any other exception
are ERROR. -/
def classify (package : Str) (res : InvokeResult) : Outcome :=
  match res with
  | .completed returncode stderr =>
    if returncode ≠ 0 then .FAIL
    else
      let lines := splitNl (pyStrip stderr)
      let success := lines.foldl
        (fun acc line => if (successMarker package).isPrefixOf line then true else acc) false
      if success then .PASS else .FAIL
  | .timedOut => .TIMEOUT
  | .fileNotFound => .ERROR
  | .excepted => .ERROR

/-- Ghost record of one external add-package invocation: which registry,
which package, the timeout passed to `subprocess.run`, and the process
environment at the moment of the call. -/
structure InvokeRecord where
  name : Str
  package : Str
  timeout : Int
  envAtCall : List (Str × Str)
deriving DecidableEq, Inhabited, Repr

/-- `run_test`: inject the two `UV_INDEX_*` credential variables into the
process environment, invoke the external tool, and classify the result.
Returns the mutated environment, the ghost invocation record, and the
outcome (the Python function returns `True` exactly for `PASS`). -/
def run_test (invoke : Str → Int → InvokeResult) (name url package username token : Str)
    (verbosity : Nat) (timeout : Int) (environ : List (Str × Str)) :
    List (Str × Str) × InvokeRecord × Outcome :=
  let env1 := dictInsert environ (idxUserKey name) username
  let env2 := dictInsert env1 (idxPassKey name) token
  let outcome := classify package (invoke name timeout)
  (env2, ⟨name, package, timeout, env2⟩, outcome)

/-- Mutable state of `main`'s per-registry loop: the three counters, the
live process environment, and the ghost trace of invocations. -/
structure LoopState where
  passed : Nat
  failed : Nat
  skipped : Nat
  env : List (Str × Str)
  calls : List InvokeRecord
deriving Inhabited

/-- One iteration of `main`'s loop (lines 195-222): skip when the token
or the package variable is absent or empty, otherwise run the test and
count pass/fail. -/
def processRegistry (invoke : Str → Int → InvokeResult) (verbosity : Nat) (timeout : Int)
    (st : LoopState) (reg : Str × Str) : LoopState :=
  if pyFalsy (lookupEnv st.env (tokenKey reg.1)) then
    { st with skipped := st.skipped + 1 }
  else if pyFalsy (lookupEnv st.env (pkgKey reg.1)) then
    { st with skipped := st.skipped + 1 }
  else
    let token := (lookupEnv st.env (tokenKey reg.1)).getD []
    let package := (lookupEnv st.env (pkgKey reg.1)).getD []
    let username := pyOrDefault (lookupEnv st.env (userKey reg.1)) "__token__".toList
    let r := run_test invoke reg.1 reg.2 package username token verbosity timeout st.env
    if r.2.2 = Outcome.PASS then
      { passed := st.passed + 1, failed := st.failed, skipped := st.skipped,
        env := r.1, calls := st.calls ++ [r.2.1] }
    else
      { passed := st.passed, failed := st.failed + 1, skipped := st.skipped,
        env := r.1, calls := st.calls ++ [r.2.1] }

/-- `DEFAULT_TIMEOUT = 30`. -/
def DEFAULT_TIMEOUT : Int := 30

/-- Python `int(s)` on the decimal strings the script encounters:
optional surrounding whitespace, optional sign, decimal digits; `none`
models the `ValueError` that would crash the script. -/
def pyInt (s : Str) : Option Int :=
  let t := pyStrip s
  let signed : Int × Str :=
    match t with
    | '-' :: ds => (-1, ds)
    | '+' :: ds => (1, ds)
    | ds => (1, ds)
  if signed.2 ≠ [] ∧ signed.2.all Char.isDigit
  then some (signed.1 * (signed.2.foldl (fun n c => n * 10 + ((c.toNat : Int) - 48)) 0))
  else none

/-- Timeout resolution of `main` (lines 181-185): the command-line flag
wins; otherwise `int(os.getenv("UV_TEST_TIMEOUT", str(DEFAULT_TIMEOUT)))`,
whose `ValueError` (modelled by `none`) would crash the run. -/
def resolveTimeout (cliTimeout : Option Int) (environ : List (Str × Str)) : Option Int :=
  match cliTimeout with
  | some t => some t
  | none =>
    match lookupEnv environ "UV_TEST_TIMEOUT".toList with
    | some v => pyInt v
    | none => some DEFAULT_TIMEOUT

/-- `build_uv()`: returns the error message printed when `cargo build`
exits non-zero (in which case the script does `sys.exit(1)`), and `none`
when the build succeeded. -/
def build_uv (returncode : Int) (stderr : Str) : Option Str :=
  if returncode ≠ 0 then
    some (if stderr = [] then "Unknown error".toList else pyStrip stderr)
  else none

/-- All external inputs of one run: the initial process environment, the
`cargo build` result, and the result of each add-package invocation as a
function of registry name and timeout. -/
structure World where
  env : List (Str × Str)
  buildReturncode : Int
  buildStderr : Str
  invoke : Str → Int → InvokeResult

/-- Parsed command line: `--timeout` (absent by default) and the
`-v` count. -/
structure Args where
  timeout? : Option Int
  verbose : Nat

/-- Observable result of one run of the script. -/
structure RunOutcome where
  crashed : Bool
  buildErrorPrinted : Option Str
  exitCode : Int
  passed : Nat
  failed : Nat
  skipped : Nat
  printedGuidance : Bool
  calls : List InvokeRecord
  finalEnv : List (Str × Str)

/-- The part of `main` after a successful build: run the per-registry
loop over `get_registries()` and compute the summary and exit code
(lines 194-238). -/
def loopOutcome (w : World) (a : Args) (timeout : Int) : RunOutcome :=
  let fin := (get_registries w.env).foldl
    (processRegistry w.invoke a.verbose timeout) ⟨0, 0, 0, w.env, []⟩
  let total := fin.passed + fin.failed
  { crashed := false, buildErrorPrinted := none,
    exitCode := if total = 0 then 1 else if fin.failed = 0 then 0 else 1,
    passed := fin.passed, failed := fin.failed, skipped := fin.skipped,
    printedGuidance := total = 0, calls := fin.calls, finalEnv := fin.env }

/-- `main()`: resolve the timeout (a bad `UV_TEST_TIMEOUT` crashes the
run before anything else), build (a failure prints the error and exits 1
before any registry is considered), then run the loop. -/
def main (w : World) (a : Args) : RunOutcome :=
  match resolveTimeout a.timeout? w.env with
  | none =>
    { crashed := true, buildErrorPrinted := none, exitCode := 1,
      passed := 0, failed := 0, skipped := 0, printedGuidance := false,
      calls := [], finalEnv := w.env }
  | some timeout =>
    match build_uv w.buildReturncode w.buildStderr with
    | some msg =>
      { crashed := false, buildErrorPrinted := some msg, exitCode := 1,
        passed := 0, failed := 0, skipped := 0, printedGuidance := false,
        calls := [], finalEnv := w.env }
    | none => loopOutcome w a timeout

end RegistriesTest

namespace RegistriesTest

/-! ### Basic dictionary lemmas -/

theorem lookupEnv_dictInsert (e : List (Str × Str)) (k v key : Str) :
    lookupEnv (dictInsert e k v) key = if key = k then some v else lookupEnv e key := by
  induction e with
  | nil =>
    by_cases h : key = k
    · simp [dictInsert, lookupEnv, h]
    · simp [dictInsert, lookupEnv, h, Ne.symm h]
  | cons kv rest ih =>
    obtain ⟨k0, v0⟩ := kv
    by_cases h0 : k0 = k
    · subst h0
      by_cases h : key = k0
      · simp [dictInsert, lookupEnv, h]
      · simp [dictInsert, lookupEnv, h, Ne.symm h]
    · by_cases h : k0 = key
      · subst h
        simp [dictInsert, lookupEnv, h0]
      · simp [dictInsert, lookupEnv, h0, h, ih]

theorem lookupEnv_dictInsert_isSome (e : List (Str × Str)) (k v key : Str)
    (h : (lookupEnv e key).isSome = true) :
    (lookupEnv (dictInsert e k v) key).isSome = true := by
  rw [lookupEnv_dictInsert]
  by_cases hk : key = k <;> simp [hk, h]

/-! ### Key disjointness: the written `UV_INDEX_*` keys never alias the
read `UV_TEST_*` keys, and the two written keys are distinct. -/

theorem test_not_pre_idx (s : Str) :
    ("UV_TEST_".toList).isPrefixOf ("UV_INDEX_".toList ++ s) = false := rfl

theorem append_cancel_two {a : Str} {b c d : Str}
    (h : a ++ (b ++ c) = a ++ (b ++ d)) : c = d := by
  have h1 := List.append_cancel_left h
  exact List.append_cancel_left h1

theorem user_ne_pass (name : Str) : idxUserKey name ≠ idxPassKey name := by
  intro h
  have h2 : "_USERNAME".toList = "_PASSWORD".toList :=
    append_cancel_two (a := "UV_INDEX_".toList) (b := strUpper name) h
  exact absurd h2 (by decide)

theorem isPrefixOf_true (l₁ l₂ : Str) : l₁.isPrefixOf l₂ = true ↔ l₁ <+: l₂ := by
  simp

theorem isSuffixOf_true (l₁ l₂ : Str) : l₁.isSuffixOf l₂ = true ↔ l₁ <:+ l₂ := by
  simp

theorem isPrefixOf_append_self (l s : Str) : l.isPrefixOf (l ++ s) = true :=
  (isPrefixOf_true l (l ++ s)).mpr (List.prefix_append l s)

/-- The keys read inside the loop carry the `UV_TEST_` prefix. -/
theorem tokenKey_has_test_pre (name : Str) :
    ("UV_TEST_".toList).isPrefixOf (tokenKey name) = true := isPrefixOf_append_self _ _

theorem pkgKey_has_test_pre (name : Str) :
    ("UV_TEST_".toList).isPrefixOf (pkgKey name) = true := isPrefixOf_append_self _ _

theorem userKey_has_test_pre (name : Str) :
    ("UV_TEST_".toList).isPrefixOf (userKey name) = true := isPrefixOf_append_self _ _

/-- Lookups of `UV_TEST_*` keys are unchanged by the `UV_INDEX_*` writes. -/
def envInv (env0 env : List (Str × Str)) : Prop :=
  ∀ k : Str, ("UV_TEST_".toList).isPrefixOf k = true → lookupEnv env k = lookupEnv env0 k

theorem envInv_refl (env0 : List (Str × Str)) : envInv env0 env0 := fun _ _ => rfl

theorem envInv_insert_idx (env0 e : List (Str × Str)) (h : envInv env0 e)
    (mid val : Str) :
    envInv env0 (dictInsert e ("UV_INDEX_".toList ++ mid) val) := by
  intro k hk
  rw [lookupEnv_dictInsert]
  have hne : k ≠ "UV_INDEX_".toList ++ mid := by
    intro he
    rw [he] at hk
    rw [test_not_pre_idx] at hk
    exact Bool.false_ne_true hk
  rw [if_neg hne]
  exact h k hk

theorem envInv_insert_idxUser (env0 e : List (Str × Str)) (h : envInv env0 e)
    (name val : Str) : envInv env0 (dictInsert e (idxUserKey name) val) :=
  envInv_insert_idx env0 e h _ val

theorem envInv_insert_idxPass (env0 e : List (Str × Str)) (h : envInv env0 e)
    (name val : Str) : envInv env0 (dictInsert e (idxPassKey name) val) :=
  envInv_insert_idx env0 e h _ val

end RegistriesTest

namespace RegistriesTest

/-! ### Step lemmas for one iteration of the per-registry loop -/

theorem processRegistry_skip_token (invoke : Str → Int → InvokeResult)
    (verbosity : Nat) (timeout : Int) (st : LoopState) (reg : Str × Str)
    (htok : pyFalsy (lookupEnv st.env (tokenKey reg.1)) = true) :
    processRegistry invoke verbosity timeout st reg = { st with skipped := st.skipped + 1 } := by
  simp [processRegistry, htok]

theorem processRegistry_skip_pkg (invoke : Str → Int → InvokeResult)
    (verbosity : Nat) (timeout : Int) (st : LoopState) (reg : Str × Str)
    (htok : pyFalsy (lookupEnv st.env (tokenKey reg.1)) = false)
    (hpkg : pyFalsy (lookupEnv st.env (pkgKey reg.1)) = true) :
    processRegistry invoke verbosity timeout st reg = { st with skipped := st.skipped + 1 } := by
  simp [processRegistry, htok, hpkg]

/-- The environment obtained by injecting the two credential variables
for a registry. -/
def injectCreds (env : List (Str × Str)) (name : Str) : List (Str × Str) :=
  dictInsert (dictInsert env (idxUserKey name)
      (pyOrDefault (lookupEnv env (userKey name)) "__token__".toList))
    (idxPassKey name) ((lookupEnv env (tokenKey name)).getD [])

/-- The ghost record produced when a registry is actually tested from
state `st`. -/
def mkRecord (env : List (Str × Str)) (name : Str) (timeout : Int) : InvokeRecord :=
  ⟨name, (lookupEnv env (pkgKey name)).getD [], timeout, injectCreds env name⟩

theorem processRegistry_run (invoke : Str → Int → InvokeResult)
    (verbosity : Nat) (timeout : Int) (st : LoopState) (reg : Str × Str)
    (htok : pyFalsy (lookupEnv st.env (tokenKey reg.1)) = false)
    (hpkg : pyFalsy (lookupEnv st.env (pkgKey reg.1)) = false) :
    processRegistry invoke verbosity timeout st reg =
      if classify ((lookupEnv st.env (pkgKey reg.1)).getD []) (invoke reg.1 timeout) = Outcome.PASS
      then { passed := st.passed + 1, failed := st.failed, skipped := st.skipped,
             env := injectCreds st.env reg.1, calls := st.calls ++ [mkRecord st.env reg.1 timeout] }
      else { passed := st.passed, failed := st.failed + 1, skipped := st.skipped,
             env := injectCreds st.env reg.1, calls := st.calls ++ [mkRecord st.env reg.1 timeout] } := by
  by_cases hc : classify ((lookupEnv st.env (pkgKey reg.1)).getD []) (invoke reg.1 timeout) = Outcome.PASS
  · simp [processRegistry, htok, hpkg, run_test, injectCreds, mkRecord, hc]
  · simp [processRegistry, htok, hpkg, run_test, injectCreds, mkRecord, hc]

end RegistriesTest

namespace RegistriesTest

/-- A registry is skipped by the loop when its token variable or its
package variable is absent or empty. -/
def credsMissing (env : List (Str × Str)) (name : Str) : Bool :=
  pyFalsy (lookupEnv env (tokenKey name)) || pyFalsy (lookupEnv env (pkgKey name))

theorem envInv_injectCreds (env0 e : List (Str × Str)) (h : envInv env0 e) (name : Str) :
    envInv env0 (injectCreds e name) :=
  envInv_insert_idxPass env0 _ (envInv_insert_idxUser env0 e h name _) name _

@[simp] theorem mkRecord_name (env : List (Str × Str)) (name : Str) (t : Int) :
    (mkRecord env name t).name = name := rfl

@[simp] theorem mkRecord_timeout (env : List (Str × Str)) (name : Str) (t : Int) :
    (mkRecord env name t).timeout = t := rfl

theorem filter_length_split (l : List (Str × Str)) (p : Str × Str → Bool) :
    (l.filter p).length + (l.filter (fun x => !p x)).length = l.length := by
  induction l with
  | nil => rfl
  | cons a l ih => by_cases h : p a <;> simp [List.filter_cons, h] <;> omega

/-- Counting invariant of the per-registry loop: relative to the initial
environment `env0`, the loop adds one skip per discovered registry with
missing credentials, one pass-or-fail per fully configured registry,
invokes the external tool exactly for the fully configured registries (in
order), and leaves all `UV_TEST_*` lookups unchanged. -/
theorem loop_counts (invoke : Str → Int → InvokeResult) (v : Nat) (t : Int)
    (env0 : List (Str × Str)) :
    ∀ (regs : List (Str × Str)) (st : LoopState), envInv env0 st.env →
      (regs.foldl (processRegistry invoke v t) st).skipped
          = st.skipped + (regs.filter (fun r => credsMissing env0 r.1)).length
        ∧ (regs.foldl (processRegistry invoke v t) st).passed
              + (regs.foldl (processRegistry invoke v t) st).failed
          = st.passed + st.failed + (regs.filter (fun r => !credsMissing env0 r.1)).length
        ∧ (regs.foldl (processRegistry invoke v t) st).calls.map InvokeRecord.name
          = st.calls.map InvokeRecord.name
              ++ (regs.filter (fun r => !credsMissing env0 r.1)).map Prod.fst
        ∧ envInv env0 (regs.foldl (processRegistry invoke v t) st).env := by
  intro regs
  induction regs with
  | nil => intro st inv; simp [inv]
  | cons r rs ih =>
    intro st inv
    have htokeq : lookupEnv st.env (tokenKey r.1) = lookupEnv env0 (tokenKey r.1) :=
      inv _ (tokenKey_has_test_pre r.1)
    have hpkgeq : lookupEnv st.env (pkgKey r.1) = lookupEnv env0 (pkgKey r.1) :=
      inv _ (pkgKey_has_test_pre r.1)
    by_cases htok : pyFalsy (lookupEnv env0 (tokenKey r.1)) = true
    · have hstep := processRegistry_skip_token invoke v t st r (by rw [htokeq]; exact htok)
      have hmiss : credsMissing env0 r.1 = true := by simp [credsMissing, htok]
      rw [List.foldl_cons, hstep]
      obtain ⟨h1, h2, h3, h4⟩ := ih { st with skipped := st.skipped + 1 } inv
      refine ⟨?_, ?_, ?_, h4⟩
      · rw [h1]; simp [hmiss, List.filter_cons]; omega
      · rw [h2]; simp [hmiss, List.filter_cons]
      · rw [h3]; simp [hmiss, List.filter_cons]
    · rw [Bool.not_eq_true] at htok
      by_cases hpkg : pyFalsy (lookupEnv env0 (pkgKey r.1)) = true
      · have hstep := processRegistry_skip_pkg invoke v t st r
          (by rw [htokeq]; exact htok) (by rw [hpkgeq]; exact hpkg)
        have hmiss : credsMissing env0 r.1 = true := by simp [credsMissing, hpkg]
        rw [List.foldl_cons, hstep]
        obtain ⟨h1, h2, h3, h4⟩ := ih { st with skipped := st.skipped + 1 } inv
        refine ⟨?_, ?_, ?_, h4⟩
        · rw [h1]; simp [hmiss, List.filter_cons]; omega
        · rw [h2]; simp [hmiss, List.filter_cons]
        · rw [h3]; simp [hmiss, List.filter_cons]
      · rw [Bool.not_eq_true] at hpkg
        have hstep := processRegistry_run invoke v t st r
          (by rw [htokeq]; exact htok) (by rw [hpkgeq]; exact hpkg)
        have hmiss : credsMissing env0 r.1 = false := by simp [credsMissing, htok, hpkg]
        have hinv2 : envInv env0 (injectCreds st.env r.1) :=
          envInv_injectCreds env0 st.env inv r.1
        rw [List.foldl_cons, hstep]
        by_cases hc : classify ((lookupEnv st.env (pkgKey r.1)).getD [])
            (invoke r.1 t) = Outcome.PASS
        · rw [if_pos hc]
          obtain ⟨h1, h2, h3, h4⟩ := ih
            { passed := st.passed + 1, failed := st.failed, skipped := st.skipped,
              env := injectCreds st.env r.1,
              calls := st.calls ++ [mkRecord st.env r.1 t] } hinv2
          refine ⟨?_, ?_, ?_, h4⟩
          · rw [h1]; simp [hmiss, List.filter_cons]
          · rw [h2]; simp [hmiss, List.filter_cons]; omega
          · rw [h3]; simp [hmiss, List.filter_cons]
        · rw [if_neg hc]
          obtain ⟨h1, h2, h3, h4⟩ := ih
            { passed := st.passed, failed := st.failed + 1, skipped := st.skipped,
              env := injectCreds st.env r.1,
              calls := st.calls ++ [mkRecord st.env r.1 t] } hinv2
          refine ⟨?_, ?_, ?_, h4⟩
          · rw [h1]; simp [hmiss, List.filter_cons]
          · rw [h2]; simp [hmiss, List.filter_cons]; omega
          · rw [h3]; simp [hmiss, List.filter_cons]

/-- After a good timeout resolution and a successful build, `main` is
exactly the per-registry loop. -/
theorem main_ok (w : World) (a : Args) (t : Int)
    (hres : resolveTimeout a.timeout? w.env = some t)
    (hbuild : w.buildReturncode = 0) :
    main w a = loopOutcome w a t := by
  have hbu : build_uv w.buildReturncode w.buildStderr = none := by
    simp [build_uv, hbuild]
  simp [main, hres, hbu]

end RegistriesTest

namespace RegistriesTest

/-- The error message printed for a failed build: the stripped stderr,
or `Unknown error` when the (unstripped) stream is empty. -/
def buildMsg (stderr : Str) : Str :=
  if stderr = [] then "Unknown error".toList else pyStrip stderr

/-! ### Concrete worlds used to instantiate the claim theorems -/

/-- Arguments with `--timeout 5` and no verbosity. -/
def simpleArgs : Args := ⟨some 5, 0⟩

/-- A world with no registry configured and a succeeding build. -/
def emptyWorld : World := ⟨[], 0, [], fun _ _ => InvokeResult.excepted⟩

/-- A world with one registry that has a URL but no token. -/
def urlOnlyWorld : World :=
  ⟨[("UV_TEST_FOO_URL".toList, "https://example.test/simple".toList)], 0, [],
    fun _ _ => InvokeResult.excepted⟩

/-- A world whose build fails with a message. -/
def badBuildWorld : World := ⟨[], 101, " boom \n".toList, fun _ _ => InvokeResult.excepted⟩

/-- A world with one fully configured registry whose invocation times
out. -/
def timeoutWorld : World :=
  ⟨[("UV_TEST_FOO_URL".toList, "https://example.test/simple".toList),
    ("UV_TEST_FOO_TOKEN".toList, "secret".toList),
    ("UV_TEST_FOO_PKG".toList, "mypkg".toList)], 0, [],
    fun _ _ => InvokeResult.timedOut⟩

/-! ### Claim C3 -/

/-- C3: after a successful build, the exit code is 0 iff at least one
registry was actually tested (`passed + failed > 0`) and none failed;
with zero registries tested the exit code is 1 and the configuration
guidance is printed, regardless of the skip count. -/
theorem exit_code_spec (w : World) (a : Args) (t : Int)
    (hres : resolveTimeout a.timeout? w.env = some t)
    (hbuild : w.buildReturncode = 0) :
    ((main w a).exitCode = 0 ↔
        0 < (main w a).passed + (main w a).failed ∧ (main w a).failed = 0)
      ∧ ((main w a).passed + (main w a).failed = 0 →
        (main w a).exitCode = 1 ∧ (main w a).printedGuidance = true) := by
  rw [main_ok w a t hres hbuild]
  simp only [loopOutcome]
  set fin := (get_registries w.env).foldl
    (processRegistry w.invoke a.verbose t) ⟨0, 0, 0, w.env, []⟩ with hfin
  by_cases h0 : fin.passed + fin.failed = 0
  · simp [h0]
  · by_cases hf : fin.failed = 0 <;> simp [h0, hf] <;> omega

/-- Witness for C3: with one discovered registry lacking a token, the run
tests nothing, exits 1 and prints the guidance. -/
theorem exit_code_spec_witness :
    (main urlOnlyWorld simpleArgs).exitCode = 1
      ∧ (main urlOnlyWorld simpleArgs).printedGuidance = true :=
  (exit_code_spec urlOnlyWorld simpleArgs 5 (by decide) (by decide)).2 (by decide)

/-! ### Claim C4 -/

/-- C4: a non-zero build exit prints the stripped captured error stream
(or `Unknown error` when the stream is empty) and terminates with exit
code 1 before any registry is tested; a zero build exit proceeds to the
per-registry loop. -/
theorem build_failure_fatal (w : World) (a : Args) (t : Int)
    (hres : resolveTimeout a.timeout? w.env = some t) :
    (w.buildReturncode ≠ 0 →
        main w a =
          { crashed := false, buildErrorPrinted := some (buildMsg w.buildStderr),
            exitCode := 1, passed := 0, failed := 0, skipped := 0,
            printedGuidance := false, calls := [], finalEnv := w.env })
      ∧ (w.buildReturncode = 0 → main w a = loopOutcome w a t)
      ∧ build_uv 1 [] = some "Unknown error".toList := by
  refine ⟨?_, fun hb => main_ok w a t hres hb, by decide⟩
  intro hb
  have hbu : build_uv w.buildReturncode w.buildStderr = some (buildMsg w.buildStderr) := by
    simp [build_uv, buildMsg, hb]
  simp [main, hres, hbu]

/-- Witness for C4: a failing build on a concrete world yields the
aborting outcome with the stripped message, and no invocation. -/
theorem build_failure_fatal_witness :
    main badBuildWorld simpleArgs =
      { crashed := false, buildErrorPrinted := some (buildMsg badBuildWorld.buildStderr),
        exitCode := 1, passed := 0, failed := 0, skipped := 0,
        printedGuidance := false, calls := [], finalEnv := badBuildWorld.env } :=
  (build_failure_fatal badBuildWorld simpleArgs 5 (by decide)).1 (by decide)

/-! ### Claim C2 -/

/-- C2: every discovered registry with a URL but an absent (or empty)
token or package variable is counted as skipped and never reaches the
external tool; the skip/test counters exactly partition the discovered
registries, and the invocation trace names exactly the fully configured
ones, so the loop never aborts early. -/
theorem missing_creds_skipped (w : World) (a : Args) (t : Int)
    (hres : resolveTimeout a.timeout? w.env = some t)
    (hbuild : w.buildReturncode = 0) :
    (main w a).skipped
        = ((get_registries w.env).filter (fun r => credsMissing w.env r.1)).length
      ∧ (main w a).passed + (main w a).failed
        = ((get_registries w.env).filter (fun r => !credsMissing w.env r.1)).length
      ∧ (main w a).calls.map InvokeRecord.name
        = ((get_registries w.env).filter (fun r => !credsMissing w.env r.1)).map Prod.fst := by
  rw [main_ok w a t hres hbuild]
  obtain ⟨h1, h2, h3, _⟩ := loop_counts w.invoke a.verbose t w.env (get_registries w.env)
    ⟨0, 0, 0, w.env, []⟩ (envInv_refl w.env)
  simp only [loopOutcome]
  exact ⟨by simpa using h1, by simpa using h2, by simpa using h3⟩

/-- Witness for C2: a run over one URL-only registry skips it, tests
nothing and invokes nothing. -/
theorem missing_creds_skipped_witness :
    (main urlOnlyWorld simpleArgs).skipped
        = ((get_registries urlOnlyWorld.env).filter
            (fun r => credsMissing urlOnlyWorld.env r.1)).length
      ∧ (main urlOnlyWorld simpleArgs).passed + (main urlOnlyWorld simpleArgs).failed
        = ((get_registries urlOnlyWorld.env).filter
            (fun r => !credsMissing urlOnlyWorld.env r.1)).length
      ∧ (main urlOnlyWorld simpleArgs).calls.map InvokeRecord.name
        = ((get_registries urlOnlyWorld.env).filter
            (fun r => !credsMissing urlOnlyWorld.env r.1)).map Prod.fst :=
  missing_creds_skipped urlOnlyWorld simpleArgs 5 (by decide) (by decide)

/-! ### Claim C7 -/

/-- C7: a timed-out invocation is classified `TIMEOUT`; for a fully
configured registry it increments the failed counter (not the skipped
one), and the loop still accounts for every discovered registry, so the
run proceeds past a timeout instead of aborting. -/
theorem timeout_is_failure (w : World) (a : Args) (t : Int)
    (hres : resolveTimeout a.timeout? w.env = some t)
    (hbuild : w.buildReturncode = 0) :
    (∀ package : Str, classify package InvokeResult.timedOut = Outcome.TIMEOUT)
      ∧ (∀ (st : LoopState) (reg : Str × Str),
          w.invoke reg.1 t = InvokeResult.timedOut →
          pyFalsy (lookupEnv st.env (tokenKey reg.1)) = false →
          pyFalsy (lookupEnv st.env (pkgKey reg.1)) = false →
          (processRegistry w.invoke a.verbose t st reg).failed = st.failed + 1
            ∧ (processRegistry w.invoke a.verbose t st reg).skipped = st.skipped
            ∧ (processRegistry w.invoke a.verbose t st reg).passed = st.passed)
      ∧ (main w a).passed + (main w a).failed + (main w a).skipped
        = (get_registries w.env).length := by
  refine ⟨fun _ => rfl, ?_, ?_⟩
  · intro st reg hto htok hpkg
    rw [processRegistry_run w.invoke a.verbose t st reg htok hpkg, hto]
    simp [classify]
  · rw [main_ok w a t hres hbuild]
    obtain ⟨h1, h2, _, _⟩ := loop_counts w.invoke a.verbose t w.env (get_registries w.env)
      ⟨0, 0, 0, w.env, []⟩ (envInv_refl w.env)
    simp only [loopOutcome]
    have hsplit := filter_length_split (get_registries w.env)
      (fun r => credsMissing w.env r.1)
    simp only at h1 h2
    omega

/-- Witness for C7: a concrete fully configured registry that times out
is counted as the one failure of the run. -/
theorem timeout_is_failure_witness :
    classify "mypkg".toList InvokeResult.timedOut = Outcome.TIMEOUT
      ∧ (processRegistry timeoutWorld.invoke 0 5
            ⟨0, 0, 0, timeoutWorld.env, []⟩ ("foo".toList, "u".toList)).failed = 0 + 1
      ∧ (main timeoutWorld simpleArgs).passed + (main timeoutWorld simpleArgs).failed
          + (main timeoutWorld simpleArgs).skipped
        = (get_registries timeoutWorld.env).length := by
  have h := timeout_is_failure timeoutWorld simpleArgs 5 (by decide) (by decide)
  refine ⟨h.1 ("mypkg".toList), ?_, h.2.2⟩
  exact (h.2.1 ⟨0, 0, 0, timeoutWorld.env, []⟩ ("foo".toList, "u".toList)
    (by decide) (by decide) (by decide)).1

/-! ### Claim C9 -/

/-- C9: a token or package variable that is present but empty is treated
exactly like an absent one: the registry is counted as skipped and the
external tool is not invoked (the state is unchanged apart from the
skip counter). -/
theorem empty_creds_skipped (invoke : Str → Int → InvokeResult) (v : Nat) (t : Int)
    (st : LoopState) (name url : Str) :
    (lookupEnv st.env (tokenKey name) = some [] →
        processRegistry invoke v t st (name, url) = { st with skipped := st.skipped + 1 })
      ∧ (pyFalsy (lookupEnv st.env (tokenKey name)) = false →
        lookupEnv st.env (pkgKey name) = some [] →
        processRegistry invoke v t st (name, url) = { st with skipped := st.skipped + 1 }) := by
  constructor
  · intro h
    exact processRegistry_skip_token invoke v t st (name, url) (by simp [h, pyFalsy])
  · intro htok h
    exact processRegistry_skip_pkg invoke v t st (name, url) htok (by simp [h, pyFalsy])

/-- Witness for C9: concrete states with an empty token and with an
empty package variable are both skipped. -/
theorem empty_creds_skipped_witness :
    processRegistry emptyWorld.invoke 0 5
        ⟨0, 0, 0, [("UV_TEST_FOO_TOKEN".toList, [])], []⟩
        ("foo".toList, "u".toList)
      = { passed := 0, failed := 0, skipped := 0 + 1,
          env := [("UV_TEST_FOO_TOKEN".toList, [])], calls := [] }
    ∧ processRegistry emptyWorld.invoke 0 5
        ⟨0, 0, 0, [("UV_TEST_FOO_TOKEN".toList, "secret".toList),
          ("UV_TEST_FOO_PKG".toList, [])], []⟩
        ("foo".toList, "u".toList)
      = { passed := 0, failed := 0, skipped := 0 + 1,
          env := [("UV_TEST_FOO_TOKEN".toList, "secret".toList),
            ("UV_TEST_FOO_PKG".toList, [])], calls := [] } :=
  ⟨(empty_creds_skipped emptyWorld.invoke 0 5
      ⟨0, 0, 0, [("UV_TEST_FOO_TOKEN".toList, [])], []⟩
      ("foo".toList) ("u".toList)).1 (by decide),
   (empty_creds_skipped emptyWorld.invoke 0 5
      ⟨0, 0, 0, [("UV_TEST_FOO_TOKEN".toList, "secret".toList),
        ("UV_TEST_FOO_PKG".toList, [])], []⟩
      ("foo".toList) ("u".toList)).2 (by decide) (by decide)⟩

/-! ### Claim C10 -/

/-- A world whose registry URL variable uses a mixed-case name while the
token and package variables are set under the same mixed case. -/
def mixedCaseWorld : World :=
  ⟨[("UV_TEST_Foo_URL".toList, "https://example.test/simple".toList),
    ("UV_TEST_Foo_TOKEN".toList, "secret".toList),
    ("UV_TEST_Foo_PKG".toList, "mypkg".toList)], 0, [],
    fun _ _ => InvokeResult.excepted⟩

/-- C10: a registry discovered from `UV_TEST_Foo_URL` is named `foo`, its
credential lookups use the fully upper-cased keys
(`UV_TEST_FOO_TOKEN`, `UV_TEST_FOO_PKG`, `UV_TEST_FOO_USERNAME`), so
credentials set under the original mixed case are not found and the
registry is skipped without invoking the external tool. -/
theorem mixed_case_token_skipped :
    get_registries mixedCaseWorld.env
        = [("foo".toList, "https://example.test/simple".toList)]
      ∧ tokenKey "foo".toList = "UV_TEST_FOO_TOKEN".toList
      ∧ pkgKey "foo".toList = "UV_TEST_FOO_PKG".toList
      ∧ userKey "foo".toList = "UV_TEST_FOO_USERNAME".toList
      ∧ lookupEnv mixedCaseWorld.env (tokenKey "foo".toList) = none
      ∧ (main mixedCaseWorld simpleArgs).skipped = 1
      ∧ (main mixedCaseWorld simpleArgs).passed = 0
      ∧ (main mixedCaseWorld simpleArgs).failed = 0
      ∧ (main mixedCaseWorld simpleArgs).calls = []
      ∧ (main mixedCaseWorld simpleArgs).exitCode = 1 := by
  decide

end RegistriesTest

namespace RegistriesTest

/-! ### Credential-injection invariant of the loop (claims C6 and C8) -/

/-- The username passed for a registry: `UV_TEST_<NAME>_USERNAME` with
default `__token__`. -/
def usernameOf (env : List (Str × Str)) (name : Str) : Str :=
  pyOrDefault (lookupEnv env (userKey name)) "__token__".toList

/-- The token passed for a registry (defined when it is tested). -/
def tokenOf (env : List (Str × Str)) (name : Str) : Str :=
  (lookupEnv env (tokenKey name)).getD []

/-- Both `UV_INDEX_*` credential variables of a registry are set. -/
def keysPresent (env : List (Str × Str)) (name : Str) : Prop :=
  (lookupEnv env (idxUserKey name)).isSome = true
    ∧ (lookupEnv env (idxPassKey name)).isSome = true

theorem keysPresent_insert (env : List (Str × Str)) (k v name : Str)
    (h : keysPresent env name) : keysPresent (dictInsert env k v) name :=
  ⟨lookupEnv_dictInsert_isSome env k v _ h.1, lookupEnv_dictInsert_isSome env k v _ h.2⟩

theorem lookup_injectCreds_user (e : List (Str × Str)) (n : Str) :
    lookupEnv (injectCreds e n) (idxUserKey n)
      = some (pyOrDefault (lookupEnv e (userKey n)) "__token__".toList) := by
  unfold injectCreds
  rw [lookupEnv_dictInsert, if_neg (user_ne_pass n), lookupEnv_dictInsert, if_pos rfl]

theorem lookup_injectCreds_pass (e : List (Str × Str)) (n : Str) :
    lookupEnv (injectCreds e n) (idxPassKey n)
      = some ((lookupEnv e (tokenKey n)).getD []) := by
  unfold injectCreds
  rw [lookupEnv_dictInsert, if_pos rfl]

theorem keysPresent_injectCreds_self (e : List (Str × Str)) (n : Str) :
    keysPresent (injectCreds e n) n :=
  ⟨by rw [lookup_injectCreds_user]; rfl, by rw [lookup_injectCreds_pass]; rfl⟩

theorem keysPresent_injectCreds (e : List (Str × Str)) (n m : Str)
    (h : keysPresent e m) : keysPresent (injectCreds e n) m := by
  unfold injectCreds
  exact keysPresent_insert _ _ _ _ (keysPresent_insert _ _ _ _ h)

/-- Invariant carried by the loop state: `UV_TEST_*` lookups are those of
the initial environment; every recorded invocation used timeout `t` and
saw its own credentials in the environment at call time; the credential
variables of every invoked registry are still set in the current
environment; and every invocation saw the credential variables of all
earlier invocations. -/
structure LoopInv (env0 : List (Str × Str)) (t : Int) (st : LoopState) : Prop where
  env_test : envInv env0 st.env
  rec_creds : ∀ rec ∈ st.calls,
    rec.timeout = t
      ∧ lookupEnv rec.envAtCall (idxUserKey rec.name) = some (usernameOf env0 rec.name)
      ∧ lookupEnv rec.envAtCall (idxPassKey rec.name) = some (tokenOf env0 rec.name)
  keys_now : ∀ rec ∈ st.calls, keysPresent st.env rec.name
  keys_earlier : ∀ j (hj : j < st.calls.length), ∀ rc ∈ st.calls.take j,
    keysPresent (st.calls.get ⟨j, hj⟩).envAtCall rc.name

theorem loopInv_extend (env0 : List (Str × Str)) (t : Int) (st : LoopState) (name : Str)
    (inv : LoopInv env0 t st) (p f s : Nat) :
    LoopInv env0 t ⟨p, f, s, injectCreds st.env name, st.calls ++ [mkRecord st.env name t]⟩ := by
  refine ⟨envInv_injectCreds env0 st.env inv.env_test name, ?_, ?_, ?_⟩
  · intro rec hrec
    rcases List.mem_append.mp hrec with hold | hnew
    · exact inv.rec_creds rec hold
    · have he : rec = mkRecord st.env name t := List.mem_singleton.mp hnew
      subst he
      have h1 := inv.env_test (userKey name) (userKey_has_test_pre name)
      have h2 := inv.env_test (tokenKey name) (tokenKey_has_test_pre name)
      refine ⟨rfl, ?_, ?_⟩
      · show lookupEnv (injectCreds st.env name) (idxUserKey name) = _
        rw [lookup_injectCreds_user, h1]; rfl
      · show lookupEnv (injectCreds st.env name) (idxPassKey name) = _
        rw [lookup_injectCreds_pass, h2]; rfl
  · intro rec hrec
    rcases List.mem_append.mp hrec with hold | hnew
    · exact keysPresent_injectCreds st.env name rec.name (inv.keys_now rec hold)
    · have he : rec = mkRecord st.env name t := List.mem_singleton.mp hnew
      subst he
      exact keysPresent_injectCreds_self st.env name
  · intro j hj rc hrc
    by_cases hlt : j < st.calls.length
    · have hget : (st.calls ++ [mkRecord st.env name t]).get ⟨j, hj⟩
          = st.calls.get ⟨j, hlt⟩ := by
        simp [List.get_eq_getElem, List.getElem_append_left hlt]
      have htake : (st.calls ++ [mkRecord st.env name t]).take j = st.calls.take j :=
        List.take_append_of_le_length (Nat.le_of_lt hlt)
      rw [hget]
      rw [htake] at hrc
      exact inv.keys_earlier j hlt rc hrc
    · have hje : j = st.calls.length := by
        have := hj
        simp only [List.length_append, List.length_cons, List.length_nil] at this
        omega
      subst hje
      have hget : (st.calls ++ [mkRecord st.env name t]).get ⟨st.calls.length, hj⟩
          = mkRecord st.env name t := by
        simp [List.get_eq_getElem]
      have htake : (st.calls ++ [mkRecord st.env name t]).take st.calls.length
          = st.calls := List.take_left _ _
      rw [hget]
      rw [htake] at hrc
      exact keysPresent_injectCreds st.env name rc.name (inv.keys_now rc hrc)

theorem loopInv_step (env0 : List (Str × Str)) (invoke : Str → Int → InvokeResult)
    (v : Nat) (t : Int) (st : LoopState) (reg : Str × Str) (inv : LoopInv env0 t st) :
    LoopInv env0 t (processRegistry invoke v t st reg) := by
  by_cases htok : pyFalsy (lookupEnv st.env (tokenKey reg.1)) = true
  · rw [processRegistry_skip_token invoke v t st reg htok]
    exact ⟨inv.env_test, inv.rec_creds, inv.keys_now, inv.keys_earlier⟩
  · rw [Bool.not_eq_true] at htok
    by_cases hpkg : pyFalsy (lookupEnv st.env (pkgKey reg.1)) = true
    · rw [processRegistry_skip_pkg invoke v t st reg htok hpkg]
      exact ⟨inv.env_test, inv.rec_creds, inv.keys_now, inv.keys_earlier⟩
    · rw [Bool.not_eq_true] at hpkg
      rw [processRegistry_run invoke v t st reg htok hpkg]
      by_cases hc : classify ((lookupEnv st.env (pkgKey reg.1)).getD [])
          (invoke reg.1 t) = Outcome.PASS
      · rw [if_pos hc]
        exact loopInv_extend env0 t st reg.1 inv _ _ _
      · rw [if_neg hc]
        exact loopInv_extend env0 t st reg.1 inv _ _ _

theorem loopInv_init (env0 : List (Str × Str)) (t : Int) :
    LoopInv env0 t ⟨0, 0, 0, env0, []⟩ := by
  refine ⟨envInv_refl env0, ?_, ?_, ?_⟩
  · intro rec hrec; exact absurd hrec (List.not_mem_nil rec)
  · intro rec hrec; exact absurd hrec (List.not_mem_nil rec)
  · intro j hj; exact absurd hj (by simp)

theorem loopInv_fold (env0 : List (Str × Str)) (invoke : Str → Int → InvokeResult)
    (v : Nat) (t : Int) :
    ∀ (regs : List (Str × Str)) (st : LoopState), LoopInv env0 t st →
      LoopInv env0 t (regs.foldl (processRegistry invoke v t) st) := by
  intro regs
  induction regs with
  | nil => intro st inv; exact inv
  | cons r rs ih =>
    intro st inv
    rw [List.foldl_cons]
    exact ih _ (loopInv_step env0 invoke v t st r inv)

end RegistriesTest

namespace RegistriesTest

/-! ### Claim C6 -/

/-- C6: every recorded add-package invocation uses the resolved timeout,
and the resolution has precedence CLI flag over `UV_TEST_TIMEOUT` over the
built-in default 30: with `--timeout 5` and `UV_TEST_TIMEOUT=10` the
effective timeout is 5, with only the variable it is 10, with neither it
is the default 30. -/
theorem timeout_precedence (w : World) (a : Args) (t : Int) (rec : InvokeRecord)
    (hres : resolveTimeout a.timeout? w.env = some t)
    (hrec : rec ∈ (main w a).calls) :
    rec.timeout = t
      ∧ resolveTimeout (some 5) [("UV_TEST_TIMEOUT".toList, "10".toList)] = some 5
      ∧ resolveTimeout none [("UV_TEST_TIMEOUT".toList, "10".toList)] = some 10
      ∧ resolveTimeout none [] = some DEFAULT_TIMEOUT
      ∧ DEFAULT_TIMEOUT = 30 := by
  refine ⟨?_, by decide, by decide, rfl, rfl⟩
  cases hbu : build_uv w.buildReturncode w.buildStderr with
  | some msg =>
    have hmain : (main w a).calls = [] := by
      simp [main, hres, hbu]
    rw [hmain] at hrec
    exact absurd hrec (List.not_mem_nil rec)
  | none =>
    have hmain : main w a = loopOutcome w a t := by
      simp [main, hres, hbu]
    rw [hmain] at hrec
    have inv := loopInv_fold w.env w.invoke a.verbose t (get_registries w.env)
      ⟨0, 0, 0, w.env, []⟩ (loopInv_init w.env t)
    exact (inv.rec_creds rec (by simpa [loopOutcome] using hrec)).1

/-- A world with one fully configured registry, used to instantiate the
timeout theorem on a run that actually invokes the tool. -/
def oneRegWorld : World :=
  ⟨[("UV_TEST_FOO_URL".toList, "https://example.test/simple".toList),
    ("UV_TEST_FOO_TOKEN".toList, "secret".toList),
    ("UV_TEST_FOO_PKG".toList, "mypkg".toList)], 0, [],
    fun _ _ => InvokeResult.completed 0 []⟩

/-- Witness for C6: the single invocation of a concrete run with
`--timeout 5` is recorded with timeout 5, and the three precedence facts
hold. -/
theorem timeout_precedence_witness :
    (main oneRegWorld simpleArgs).calls[0]!.timeout = 5
      ∧ resolveTimeout (some 5) [("UV_TEST_TIMEOUT".toList, "10".toList)] = some 5
      ∧ resolveTimeout none [("UV_TEST_TIMEOUT".toList, "10".toList)] = some 10
      ∧ resolveTimeout none [] = some DEFAULT_TIMEOUT
      ∧ DEFAULT_TIMEOUT = 30 :=
  timeout_precedence oneRegWorld simpleArgs 5 ((main oneRegWorld simpleArgs).calls[0]!)
    (by decide) (by decide)

/-! ### Claim C8 -/

/-- C8: immediately before each add-package invocation the two variables
`UV_INDEX_<NAME>_USERNAME` and `UV_INDEX_<NAME>_PASSWORD` are set in the
environment seen by the call, with that registry's username and token;
they are never unset afterwards: they are still present in the final
environment, and every later invocation still observes the credential
variables of every earlier one. -/
theorem credentials_persist (w : World) (a : Args) (t : Int)
    (hres : resolveTimeout a.timeout? w.env = some t)
    (hbuild : w.buildReturncode = 0) :
    (∀ rec ∈ (main w a).calls,
        lookupEnv rec.envAtCall (idxUserKey rec.name) = some (usernameOf w.env rec.name)
          ∧ lookupEnv rec.envAtCall (idxPassKey rec.name) = some (tokenOf w.env rec.name))
      ∧ (∀ rec ∈ (main w a).calls, keysPresent (main w a).finalEnv rec.name)
      ∧ (∀ j (hj : j < (main w a).calls.length), ∀ rc ∈ (main w a).calls.take j,
          keysPresent ((main w a).calls.get ⟨j, hj⟩).envAtCall rc.name) := by
  rw [main_ok w a t hres hbuild]
  have inv := loopInv_fold w.env w.invoke a.verbose t (get_registries w.env)
    ⟨0, 0, 0, w.env, []⟩ (loopInv_init w.env t)
  refine ⟨?_, ?_, ?_⟩
  · intro rec hrec
    exact (inv.rec_creds rec (by simpa [loopOutcome] using hrec)).2
  · intro rec hrec
    exact inv.keys_now rec (by simpa [loopOutcome] using hrec)
  · intro j hj rc hrc
    exact inv.keys_earlier j (by simpa [loopOutcome] using hj) rc
      (by simpa [loopOutcome] using hrc)

/-- A world with two fully configured registries tested in order. -/
def twoRegWorld : World :=
  ⟨[("UV_TEST_AAA_URL".toList, "https://a.test/simple".toList),
    ("UV_TEST_AAA_TOKEN".toList, "ta".toList),
    ("UV_TEST_AAA_PKG".toList, "pa".toList),
    ("UV_TEST_BBB_URL".toList, "https://b.test/simple".toList),
    ("UV_TEST_BBB_TOKEN".toList, "tb".toList),
    ("UV_TEST_BBB_PKG".toList, "pb".toList)], 0, [],
    fun _ _ => InvokeResult.completed 0 []⟩

/-- Witness for C8: in a concrete two-registry run, the first invocation
sees its own credentials, both credential variables survive into the
final environment, and the second invocation still observes the first
registry's credential variables. -/
theorem credentials_persist_witness :
    (lookupEnv ((main twoRegWorld simpleArgs).calls[0]!.envAtCall)
        (idxUserKey ((main twoRegWorld simpleArgs).calls[0]!.name))
      = some (usernameOf twoRegWorld.env ((main twoRegWorld simpleArgs).calls[0]!.name)))
      ∧ keysPresent (main twoRegWorld simpleArgs).finalEnv
          ((main twoRegWorld simpleArgs).calls[0]!.name)
      ∧ keysPresent
          (((main twoRegWorld simpleArgs).calls.get ⟨1, by decide⟩).envAtCall)
          ((main twoRegWorld simpleArgs).calls[0]!.name) := by
  have h := credentials_persist twoRegWorld simpleArgs 5 (by decide) (by decide)
  refine ⟨(h.1 ((main twoRegWorld simpleArgs).calls[0]!) (by decide)).1,
    h.2.1 ((main twoRegWorld simpleArgs).calls[0]!) (by decide), ?_⟩
  exact h.2.2 1 (by decide) ((main twoRegWorld simpleArgs).calls[0]!) (by decide)

end RegistriesTest

namespace RegistriesTest

/-! ### Characterisation of the URL-variable pattern match (claim C5) -/

/-- Extracting the middle of a decomposed key returns the middle. -/
theorem extract_mid (m : Str) :
    ((URL_PRE ++ m ++ URL_SUF).drop URL_PRE.length).take
        ((URL_PRE ++ m ++ URL_SUF).length - URL_PRE.length - URL_SUF.length) = m := by
  rw [List.append_assoc, List.drop_left]
  have hn : (URL_PRE ++ (m ++ URL_SUF)).length - URL_PRE.length - URL_SUF.length
      = m.length := by
    simp [List.length_append]
  rw [hn]
  exact List.take_left m URL_SUF

/-- For a key without newlines, the regex match succeeds exactly on the
decompositions `UV_TEST_ ++ mid ++ _URL` with nonempty `mid`, and
captures `mid`. -/
theorem matchUrlVar_eq_some {k m : Str} (hk : '\n' ∉ k) :
    matchUrlVar k = some m ↔ k = URL_PRE ++ m ++ URL_SUF ∧ m ≠ [] := by
  have hlast : ¬ k.getLast? = some '\n' := by
    intro h
    exact hk (List.mem_of_getLast?_eq_some h)
  have ht : (if k.getLast? = some '\n' then k.dropLast else k) = k := if_neg hlast
  constructor
  · intro h
    simp only [matchUrlVar, ht] at h
    split at h
    · rename_i hcond
      rw [Bool.and_eq_true, Bool.and_eq_true, Bool.and_eq_true] at hcond
      obtain ⟨⟨⟨hp, hs⟩, hlen⟩, _⟩ := hcond
      have hp2 : URL_PRE <+: k := (isPrefixOf_true URL_PRE k).mp hp
      have hs2 : URL_SUF <:+ k := (isSuffixOf_true URL_SUF k).mp hs
      have hlen2 : URL_PRE.length + URL_SUF.length < k.length := of_decide_eq_true hlen
      obtain ⟨i, hi⟩ := hs2
      have hii : i <+: k := ⟨URL_SUF, hi⟩
      have hpi : URL_PRE <+: i := by
        apply List.prefix_of_prefix_length_le hp2 hii
        have : i.length + URL_SUF.length = k.length := by
          rw [← hi, List.length_append]
        omega
      obtain ⟨mid, hmid⟩ := hpi
      have hdecomp : k = URL_PRE ++ mid ++ URL_SUF := by
        rw [← hi, ← hmid]
      have hm : m = mid := by
        rw [hdecomp] at h
        rw [extract_mid] at h
        exact (Option.some.injEq _ _).mp h.symm
      subst hm
      refine ⟨hdecomp, ?_⟩
      intro hnil
      rw [hdecomp, hnil] at hlen2
      simp [List.length_append] at hlen2
    · exact absurd h (by simp)
  · rintro ⟨hdecomp, hne⟩
    subst hdecomp
    have hnlm : ('\n' ∈ m) → False := fun hm => hk (by simp [hm])
    simp only [matchUrlVar, ht]
    have hcond : (URL_PRE.isPrefixOf (URL_PRE ++ m ++ URL_SUF)
        && URL_SUF.isSuffixOf (URL_PRE ++ m ++ URL_SUF)
        && decide (URL_PRE.length + URL_SUF.length < (URL_PRE ++ m ++ URL_SUF).length)
        && !(((URL_PRE ++ m ++ URL_SUF).drop URL_PRE.length).take
              ((URL_PRE ++ m ++ URL_SUF).length - URL_PRE.length - URL_SUF.length)).contains
            '\n') = true := by
    
      rw [extract_mid]
      rw [Bool.and_eq_true, Bool.and_eq_true, Bool.and_eq_true]
      refine ⟨⟨⟨?_, ?_⟩, ?_⟩, ?_⟩
      · rw [isPrefixOf_true, List.append_assoc]
        exact List.prefix_append URL_PRE (m ++ URL_SUF)
      · rw [isSuffixOf_true]
        exact List.suffix_append (URL_PRE ++ m) URL_SUF
      · rw [decide_eq_true_iff]
        have : 0 < m.length := List.length_pos.mpr hne
        simp [List.length_append]
        omega
      · simp only [Bool.not_eq_true']
        rw [← Bool.not_eq_true]
        intro hcont
        rw [List.contains_eq_any_beq] at hcont
        rw [List.any_eq_true] at hcont
        obtain ⟨c, hc, hbeq⟩ := hcont
        have he : '\n' = c := beq_iff_eq.mp hbeq
        rw [← he] at hc
        exact hnlm hc
    rw [if_pos hcond]
    rw [extract_mid]
  
/-- Rightmost-match semantics of the registry dict built by
`get_registries`: the value finally stored under `n` comes from the last
environment entry whose key matches the pattern with lower-cased captured
name `n`. -/
def lastUrlValue : List (Str × Str) → Str → Option Str
  | [], _ => none
  | kv :: rest, n =>
    match lastUrlValue rest n with
    | some v => some v
    | none =>
      match matchUrlVar kv.1 with
      | some name => if strLower name = n then some kv.2 else none
      | none => none

theorem get_registries_go (n : Str) : ∀ (l : List (Str × Str)) (d : List (Str × Str)),
    lookupEnv (l.foldl
      (fun regs kv =>
        match matchUrlVar kv.1 with
        | some name => dictInsert regs (strLower name) kv.2
        | none => regs) d) n =
      match lastUrlValue l n with
      | some v => some v
      | none => lookupEnv d n := by
  intro l
  induction l with
  | nil => intro d; rfl
  | cons kv rest ih =>
    intro d
    rw [List.foldl_cons, ih]
    cases hr : lastUrlValue rest n with
    | some v => simp [lastUrlValue, hr]
    | none =>
      simp only [lastUrlValue, hr]
      cases hm : matchUrlVar kv.1 with
      | none => simp [hm]
      | some name =>
        by_cases hn : strLower name = n
        · simp [hm, hn, lookupEnv_dictInsert]
        · simp [hm, hn, lookupEnv_dictInsert, Ne.symm hn]

theorem get_registries_lookup (environ : List (Str × Str)) (n : Str) :
    lookupEnv (get_registries environ) n = lastUrlValue environ n := by
  unfold get_registries
  rw [get_registries_go n environ []]
  cases h : lastUrlValue environ n <;> rfl

theorem lastUrlValue_isSome_iff (environ : List (Str × Str)) (n : Str) :
    (lastUrlValue environ n).isSome = true ↔
      ∃ kv ∈ environ, ∃ name, matchUrlVar kv.1 = some name ∧ strLower name = n := by
  induction environ with
  | nil => simp [lastUrlValue]
  | cons kv rest ih =>
    simp only [lastUrlValue]
    cases hr : lastUrlValue rest n with
    | some v =>
      constructor
      · intro _
        obtain ⟨kv', hkv', rest'⟩ := ih.mp (by rw [hr]; rfl)
        exact ⟨kv', List.mem_cons_of_mem _ hkv', rest'⟩
      · intro _
        rfl
    | none =>
      cases hm : matchUrlVar kv.1 with
      | none =>
        constructor
        · intro h
          exact absurd h (by simp)
        · rintro ⟨kv', hkv', name, hname, hlow⟩
          rcases List.mem_cons.mp hkv' with he | hm2
          · subst he
            rw [hm] at hname
            exact absurd hname (by simp)
          · have hsome : (lastUrlValue rest n).isSome = true :=
              ih.mpr ⟨kv', hm2, name, hname, hlow⟩
            rw [hr] at hsome
            exact absurd hsome (by simp)
      | some name =>
        by_cases hn : strLower name = n
        · simp only [hm, hn, if_pos rfl]
          constructor
          · intro _
            exact ⟨kv, List.mem_cons_self kv rest, name, hm, hn⟩
          · intro _
            rfl
        · simp only [hm, if_neg hn]
          constructor
          · intro h
            exact absurd h (by simp)
          · rintro ⟨kv', hkv', name', hname', hlow'⟩
            rcases List.mem_cons.mp hkv' with he | hm2
            · subst he
              rw [hm] at hname'
              have : name' = name := by
                have := (Option.some.injEq _ _).mp hname'
                exact this.symm
              subst this
              exact absurd hlow' hn
            · have hsome : (lastUrlValue rest n).isSome = true :=
                ih.mpr ⟨kv', hm2, name', hname', hlow'⟩
              rw [hr] at hsome
              exact absurd hsome (by simp)

theorem lastUrlValue_eq_some (environ : List (Str × Str)) (n v : Str)
    (h : lastUrlValue environ n = some v) :
    ∃ kv ∈ environ, ∃ name, matchUrlVar kv.1 = some name
      ∧ strLower name = n ∧ kv.2 = v := by
  induction environ with
  | nil => simp [lastUrlValue] at h
  | cons kv rest ih =>
    simp only [lastUrlValue] at h
    cases hr : lastUrlValue rest n with
    | some v' =>
      rw [hr] at h
      have hv : v' = v := (Option.some.injEq _ _).mp h
      subst hv
      obtain ⟨kv', hkv', name, hname, hlow, hval⟩ := ih hr
      exact ⟨kv', List.mem_cons_of_mem _ hkv', name, hname, hlow, hval⟩
    | none =>
      rw [hr] at h
      cases hm : matchUrlVar kv.1 with
      | none => rw [hm] at h; exact absurd h (by simp)
      | some name =>
        rw [hm] at h
        by_cases hn : strLower name = n
        · have h2 : (if strLower name = n then some kv.2 else none) = some v := h
          rw [if_pos hn] at h2
          have hv : kv.2 = v := (Option.some.injEq _ _).mp h2
          exact ⟨kv, List.mem_cons_self kv rest, name, hm, hn, hv⟩
        · have h2 : (if strLower name = n then some kv.2 else none) = some v := h
          rw [if_neg hn] at h2
          exact absurd h2 (by simp)

end RegistriesTest

namespace RegistriesTest

/-! ### Claim C5 -/

/-- C5: for an environment whose variable names contain no newline, a
registry name `n` appears in the discovered mapping iff some variable
`UV_TEST_<NAME>_URL` (nonempty `<NAME>`) exists with `<NAME>` lower-casing
to `n`, whatever the case of `<NAME>`; and the value stored under `n`
is the value of such a matching variable. -/
theorem registry_discovery_spec (environ : List (Str × Str))
    (hk : ∀ kv ∈ environ, '\n' ∉ kv.1) (n : Str) :
    ((lookupEnv (get_registries environ) n).isSome = true ↔
        ∃ NAME v, NAME ≠ []
          ∧ ("UV_TEST_".toList ++ NAME ++ "_URL".toList, v) ∈ environ
          ∧ strLower NAME = n)
      ∧ (∀ v, lookupEnv (get_registries environ) n = some v →
        ∃ NAME, NAME ≠ []
          ∧ ("UV_TEST_".toList ++ NAME ++ "_URL".toList, v) ∈ environ
          ∧ strLower NAME = n) := by
  constructor
  · rw [get_registries_lookup, lastUrlValue_isSome_iff]
    constructor
    · rintro ⟨kv, hkv, name, hname, hlow⟩
      have hdec := (matchUrlVar_eq_some (hk kv hkv)).mp hname
      simp only [URL_PRE, URL_SUF] at hdec
      refine ⟨name, kv.2, hdec.2, ?_, hlow⟩
      have hkv2 : ("UV_TEST_".toList ++ name ++ "_URL".toList, kv.2) = kv := by
        rw [← hdec.1]
      rw [hkv2]
      exact hkv
    · rintro ⟨NAME, v, hne, hmem, hlow⟩
      refine ⟨("UV_TEST_".toList ++ NAME ++ "_URL".toList, v), hmem, NAME, ?_, hlow⟩
      exact (matchUrlVar_eq_some (hk _ hmem)).mpr ⟨rfl, hne⟩
  · intro v hv
    rw [get_registries_lookup] at hv
    obtain ⟨kv, hkv, name, hname, hlow, hval⟩ := lastUrlValue_eq_some environ n v hv
    have hdec := (matchUrlVar_eq_some (hk kv hkv)).mp hname
    simp only [URL_PRE, URL_SUF] at hdec
    refine ⟨name, hdec.2, ?_, hlow⟩
    have hkv2 : ("UV_TEST_".toList ++ name ++ "_URL".toList, v) = kv := by
      rw [← hdec.1, ← hval]
    rw [hkv2]
    exact hkv

/-- Witness for C5: on a concrete environment with a mixed-case URL
variable, the name `foo` is discovered. -/
theorem registry_discovery_spec_witness :
    (lookupEnv (get_registries [("UV_TEST_Foo_URL".toList, "u".toList)])
        ("foo".toList)).isSome = true :=
  (registry_discovery_spec [("UV_TEST_Foo_URL".toList, "u".toList)]
      (by decide) ("foo".toList)).1.mpr
    ⟨"Foo".toList, "u".toList, by decide, by decide, by decide⟩

end RegistriesTest

namespace RegistriesTest

/-! ### Line structure of the captured stderr (claim C1) -/

/-- The character predicate delimiting the pieces of `split("\n")`. -/
def notNl : Char → Bool := fun c => c != '\n'

theorem splitNl_ne_nil (x : Str) : splitNl x ≠ [] := by
  cases x with
  | nil => simp [splitNl]
  | cons c rest =>
    simp only [splitNl]
    by_cases h : c = '\n'
    · simp [h]
    · simp only [if_neg h]
      cases hs : splitNl rest <;> simp

theorem splitNl_head? (x : Str) : (splitNl x).head? = some (x.takeWhile notNl) := by
  induction x with
  | nil => rfl
  | cons c rest ih =>
    simp only [splitNl]
    by_cases h : c = '\n'
    · subst h
      have hn : notNl '\n' = false := by simp [notNl]
      simp [List.takeWhile_cons, hn]
    · simp only [if_neg h]
      have hn : notNl c = true := by simp [notNl, h]
      cases hs : splitNl rest with
      | nil => exact absurd hs (splitNl_ne_nil rest)
      | cons l ls =>
        rw [hs] at ih
        have hl : l = rest.takeWhile notNl := by simpa using ih
        simp [List.takeWhile_cons, hn, hl]

theorem splitNl_tail_mem (x : Str) (l : Str) :
    l ∈ (splitNl x).tail → ∃ u w, x = u ++ '\n' :: w ∧ l = w.takeWhile notNl := by
  induction x with
  | nil => intro h; simp [splitNl] at h
  | cons c rest ih =>
    intro h
    by_cases hc : c = '\n'
    · subst hc
      simp only [splitNl, if_pos rfl, List.tail_cons] at h
      cases hs : splitNl rest with
      | nil => exact absurd hs (splitNl_ne_nil rest)
      | cons l0 ls =>
        rw [hs] at h
        rcases List.mem_cons.mp h with he | ht
        · have hh := splitNl_head? rest
          rw [hs] at hh
          have hl0 : l0 = rest.takeWhile notNl := by simpa using hh
          exact ⟨[], rest, rfl, by rw [he, hl0]⟩
        · obtain ⟨u, w, hx, hl⟩ := ih (by rw [hs]; exact ht)
          exact ⟨'\n' :: u, w, by rw [hx]; rfl, hl⟩
    · simp only [splitNl, if_neg hc] at h
      cases hs : splitNl rest with
      | nil => rw [hs] at h; simp at h
      | cons l0 ls =>
        rw [hs] at h
        simp only [List.tail_cons] at h
        obtain ⟨u, w, hx, hl⟩ := ih (by rw [hs]; exact h)
        exact ⟨c :: u, w, by rw [hx]; rfl, hl⟩

theorem mem_splitNl (x l : Str) (h : l ∈ splitNl x) :
    l = x.takeWhile notNl ∨ ∃ u w, x = u ++ '\n' :: w ∧ l = w.takeWhile notNl := by
  cases hs : splitNl x with
  | nil => exact absurd hs (splitNl_ne_nil x)
  | cons l0 ls =>
    rw [hs] at h
    rcases List.mem_cons.mp h with he | ht
    · left
      have hh := splitNl_head? x
      rw [hs] at hh
      have hl0 : l0 = x.takeWhile notNl := by simpa using hh
      rw [he, hl0]
    · right
      exact splitNl_tail_mem x l (by rw [hs]; exact ht)

theorem takeWhile_mem_splitNl (x : Str) : x.takeWhile notNl ∈ splitNl x := by
  have hh := splitNl_head? x
  cases hs : splitNl x with
  | nil => exact absurd hs (splitNl_ne_nil x)
  | cons l0 ls =>
    rw [hs] at hh
    have hl0 : l0 = x.takeWhile notNl := by simpa using hh
    rw [← hl0]
    exact List.mem_cons_self l0 ls

theorem mem_of_mem_tail_splitNl (x l : Str) (h : l ∈ (splitNl x).tail) : l ∈ splitNl x := by
  cases hs : splitNl x with
  | nil => exact absurd hs (splitNl_ne_nil x)
  | cons l0 ls =>
    rw [hs] at h
    simp only [List.tail_cons] at h
    exact List.mem_cons_of_mem _ h

theorem after_newline_mem_tail (w : Str) : ∀ u : Str,
    w.takeWhile notNl ∈ (splitNl (u ++ '\n' :: w)).tail := by
  intro u
  induction u with
  | nil =>
    have hsp : splitNl ([] ++ '\n' :: w) = [] :: splitNl w := by
      simp [splitNl]
    rw [hsp, List.tail_cons]
    exact takeWhile_mem_splitNl w
  | cons c u ih =>
    by_cases hc : c = '\n'
    · subst hc
      have hsp : splitNl (('\n' :: u) ++ '\n' :: w) = [] :: splitNl (u ++ '\n' :: w) := by
        simp [splitNl]
      rw [hsp, List.tail_cons]
      exact mem_of_mem_tail_splitNl _ _ ih
    · cases hs : splitNl (u ++ '\n' :: w) with
      | nil => exact absurd hs (splitNl_ne_nil _)
      | cons l0 ls =>
        have hsp : splitNl ((c :: u) ++ '\n' :: w) = (c :: l0) :: ls := by
          simp only [List.cons_append, splitNl, if_neg hc, List.append_eq, hs]
        rw [hsp, List.tail_cons]
        rw [hs] at ih
        simpa using ih

theorem takeWhile_append_pre (p : Char → Bool) (v b : Str) :
    v.takeWhile p <+: (v ++ b).takeWhile p := by
  induction v with
  | nil => simp
  | cons c v ih =>
    by_cases h : p c
    · simp only [List.cons_append, List.takeWhile_cons, h, if_pos]
      exact List.cons_prefix_cons.mpr ⟨rfl, ih⟩
    · simp [List.takeWhile_cons, h]

/-! ### Structure of `str.strip()` (claim C1) -/

theorem pyStrip_infix (s : Str) : ∃ a b, s = a ++ pyStrip s ++ b := by
  obtain ⟨a, ha⟩ := List.dropWhile_suffix (l := s) pyIsSpace
  obtain ⟨b', hb⟩ := List.dropWhile_suffix (l := (s.dropWhile pyIsSpace).reverse) pyIsSpace
  have h3 : s.dropWhile pyIsSpace = pyStrip s ++ b'.reverse := by
    have h4 := congrArg List.reverse hb
    rw [List.reverse_append, List.reverse_reverse] at h4
    exact h4.symm
  refine ⟨a, b'.reverse, ?_⟩
  rw [h3] at ha
  rw [List.append_assoc]
  exact ha.symm

theorem pyStrip_head_not_space (s : Str) (c : Char)
    (h : (pyStrip s).head? = some c) : pyIsSpace c = false := by
  unfold pyStrip at h
  rw [List.head?_reverse] at h
  obtain ⟨b', hb⟩ := List.dropWhile_suffix (l := (s.dropWhile pyIsSpace).reverse) pyIsSpace
  have h2 : ((s.dropWhile pyIsSpace).reverse).getLast? = some c := by
    rw [← hb, List.getLast?_append, h]
    rfl
  rw [List.getLast?_reverse] at h2
  have h3 := List.head?_dropWhile_not pyIsSpace s
  rw [h2] at h3
  exact h3

end RegistriesTest

namespace RegistriesTest

theorem foldl_orFlag (p : Str → Bool) (L : List Str) : ∀ acc : Bool,
    L.foldl (fun acc line => if p line then true else acc) acc = (acc || L.any p) := by
  induction L with
  | nil => intro acc; simp
  | cons l L ih =>
    intro acc
    rw [List.foldl_cons, ih]
    by_cases h : p l
    · simp [h]
    · simp [h]

theorem classify_pass_iff (package stderr : Str) :
    (classify package (InvokeResult.completed 0 stderr) = Outcome.PASS ↔
      (splitNl (pyStrip stderr)).any
        (fun line => (successMarker package).isPrefixOf line) = true) := by
  have hc : classify package (InvokeResult.completed 0 stderr)
      = (if (splitNl (pyStrip stderr)).foldl
            (fun acc line => if (successMarker package).isPrefixOf line then true else acc)
            false
         then Outcome.PASS else Outcome.FAIL) := by
    simp [classify]
  rw [hc, foldl_orFlag]
  simp only [Bool.false_or]
  by_cases h : (splitNl (pyStrip stderr)).any
      (fun line => (successMarker package).isPrefixOf line) = true
  · simp [h]
  · simp only [Bool.not_eq_true] at h
    simp [h]

/-! ### Claim C1 -/

/-- C1 counterexample: the captured stream `" + mypkg==1.2.3"` consists
of exactly one line, which begins with (indeed equals)
`" + mypkg==1.2.3"`, the exit code is zero, and yet the outcome is FAIL:
`strip()` removes the line's leading space before the prefix scan. -/
theorem classify_strip_mangles_first_line :
    (∃ l ∈ splitNl (" + mypkg==1.2.3".toList),
        (successMarker "mypkg".toList).isPrefixOf l = true)
      ∧ classify "mypkg".toList
          (InvokeResult.completed 0 (" + mypkg==1.2.3".toList)) = Outcome.FAIL :=
  ⟨⟨" + mypkg==1.2.3".toList, by decide, by decide⟩, by decide⟩

/-- C1 (amended): for a zero-exit invocation the outcome is PASS iff the
captured error stream, after stripping leading and trailing whitespace,
contains a line beginning with `" + <package>=="`; consequently a PASS
still implies that some line of the raw stream begins with that marker
(stripping can only destroy a match on the first line, never create
one). -/
theorem classify_pass_iff_stripped_line (package stderr : Str) :
    (classify package (InvokeResult.completed 0 stderr) = Outcome.PASS ↔
        ∃ l ∈ splitNl (pyStrip stderr), (successMarker package).isPrefixOf l = true)
      ∧ (classify package (InvokeResult.completed 0 stderr) = Outcome.PASS →
        ∃ l ∈ splitNl stderr, (successMarker package).isPrefixOf l = true) := by
  have hiff : classify package (InvokeResult.completed 0 stderr) = Outcome.PASS ↔
      ∃ l ∈ splitNl (pyStrip stderr), (successMarker package).isPrefixOf l = true := by
    rw [classify_pass_iff, List.any_eq_true]
  refine ⟨hiff, ?_⟩
  intro hp
  obtain ⟨l, hl, hpref⟩ := hiff.mp hp
  rcases mem_splitNl (pyStrip stderr) l hl with hhead | ⟨u, w, hsw, hlw⟩
  · exfalso
    have hpre : successMarker package <+: pyStrip stderr := by
      have h1 : successMarker package <+: l := (isPrefixOf_true _ _).mp hpref
      have h2 : l <+: pyStrip stderr := hhead ▸ List.takeWhile_prefix notNl
      exact h1.trans h2
    obtain ⟨rest, hrest⟩ := hpre
    have hh : (pyStrip stderr).head? = some ' ' := by
      rw [← hrest]
      rfl
    have hns := pyStrip_head_not_space stderr ' ' hh
    simp [pyIsSpace] at hns
  · obtain ⟨a, b, hs⟩ := pyStrip_infix stderr
    have hs2 : stderr = (a ++ u) ++ '\n' :: (w ++ b) := by
      rw [hs, hsw]
      simp [List.append_assoc]
    have hmem : (w ++ b).takeWhile notNl ∈ splitNl stderr := by
      rw [hs2]
      exact mem_of_mem_tail_splitNl _ _ (after_newline_mem_tail (w ++ b) (a ++ u))
    refine ⟨(w ++ b).takeWhile notNl, hmem, ?_⟩
    rw [isPrefixOf_true]
    have h1 : successMarker package <+: w.takeWhile notNl := by
      rw [← hlw]
      exact (isPrefixOf_true _ _).mp hpref
    exact h1.trans (takeWhile_append_pre notNl w b)

/-- Witness for the amended C1: a realistic two-line stream passes, and
the marker line is also a line of the raw stream. -/
theorem classify_pass_iff_stripped_line_witness :
    classify "mypkg".toList
        (InvokeResult.completed 0 ("Resolved 2 packages\n + mypkg==1.2.3\n".toList))
      = Outcome.PASS
      ∧ ∃ l ∈ splitNl ("Resolved 2 packages\n + mypkg==1.2.3\n".toList),
        (successMarker "mypkg".toList).isPrefixOf l = true := by
  have h := classify_pass_iff_stripped_line "mypkg".toList
    ("Resolved 2 packages\n + mypkg==1.2.3\n".toList)
  have hp : classify "mypkg".toList
      (InvokeResult.completed 0 ("Resolved 2 packages\n + mypkg==1.2.3\n".toList))
      = Outcome.PASS :=
    h.1.mpr ⟨" + mypkg==1.2.3".toList, by decide, by decide⟩
  exact ⟨hp, h.2 hp⟩

end RegistriesTest
